import Mathlib

/-!
Shallow embedding of the chainwatch policy-evaluation core
(src/chainwatch/{types,redaction,tracer,policy,denylist,enforcement}.py).

Python dynamic values are modelled by the inductive `PyVal` (JSON-like:
None, bool, int, str, list, dict with string keys).  Python dicts become
association lists whose `get` is first-occurrence lookup.  Machine-level
concerns do not arise: Python integers are unbounded, matching `Int`.
External library primitives (the `re` regex engine, `pathlib` expansion
and glob matching, `yaml` parsing) are not part of the repository; they
are modelled as an explicit record of oracle functions (`PyLib`) and an
abstract configuration state (`DenylistConfig`), while every line of
control flow of the repository itself is translated directly.
-/

namespace Chainwatch

/-- Dynamic Python values (the subset the engine manipulates). -/
inductive PyVal where
  | none : PyVal
  | bool (b : Bool) : PyVal
  | int (n : Int) : PyVal
  | str (s : String) : PyVal
  | list (xs : List PyVal) : PyVal
  | dict (xs : List (String × PyVal)) : PyVal

/-- A Python dict, keyed by strings. -/
abbrev PyDict := List (String × PyVal)

/-- `d.get(k)` / `d.get(k, default)` without the default: first binding wins. -/
def PyDict.get (d : PyDict) (k : String) : Option PyVal :=
  (d.find? (fun kv => kv.1 = k)).map (·.2)

mutual

/-- `repr()` used for elements inside containers (string-escape corner
cases are not modelled; no verified property depends on it). -/
def pyReprAux : PyVal → String
  | .none => "None"
  | .bool true => "True"
  | .bool false => "False"
  | .int n => toString n
  | .str s => "'" ++ s ++ "'"
  | .list xs => "[" ++ pyReprList xs ++ "]"
  | .dict xs => "\x7b" ++ pyReprDict xs ++ "\x7d"

def pyReprList : List PyVal → String
  | [] => ""
  | [x] => pyReprAux x
  | x :: xs => pyReprAux x ++ ", " ++ pyReprList xs

def pyReprDict : List (String × PyVal) → String
  | [] => ""
  | [(k, v)] => "'" ++ k ++ "': " ++ pyReprAux v
  | (k, v) :: xs => "'" ++ k ++ "': " ++ pyReprAux v ++ ", " ++ pyReprDict xs

end

/-- Python `str()` of a value.  Scalars are rendered exactly as CPython
renders them; containers render via `repr` of the elements. -/
def pyStr : PyVal → String
  | .str s => s
  | v => pyReprAux v

/-- Digits of a decimal literal to a natural number; `Option.none` when the
character list is empty or holds a non-digit. -/
def digitsToNat : List Char → Option Nat
  | [] => Option.none
  | cs => cs.foldl
      (fun acc c =>
        match acc with
        | Option.none => Option.none
        | Option.some n => if c.isDigit then Option.some (n * 10 + (c.toNat - 48)) else Option.none)
      (Option.some 0)

/-- Python `int(s)` on a string: optional surrounding whitespace, optional
sign, decimal digits; `Option.none` when the parse fails. -/
def pyParseInt (s : String) : Option Int :=
  match (s.trim).data with
  | '+' :: rest => (digitsToNat rest).map (fun n => (n : Int))
  | '-' :: rest => (digitsToNat rest).map (fun n => -(n : Int))
  | cs => (digitsToNat cs).map (fun n => (n : Int))

/-- `_to_int` of `ResultMeta.from_dict`: Python `int(x)` wrapped in
`try/except`, so every failure (None, lists, dicts, bad strings)
coerces to 0.  `int(bool)` is 0/1, `int(int)` is the identity. -/
def toIntOr0 : PyVal → Int
  | .bool b => if b then 1 else 0
  | .int n => n
  | .str s => (pyParseInt s).getD 0
  | _ => 0

/-- The mask sentinel `MASK` of redaction.py. -/
def MASK : String := "***"

/-- `DEFAULT_PII_KEYS` of redaction.py (set modelled as a list; only
membership is ever used). -/
def DEFAULT_PII_KEYS : List String :=
  ["name", "first_name", "last_name", "full_name", "email",
   "phone", "address", "ssn", "passport", "dob"]

/-- `mask_value` of redaction.py: None passes through, numbers and
booleans pass through, strings and every other value become `MASK`. -/
def mask_value : PyVal → PyVal
  | .none => .none
  | .bool b => .bool b
  | .int n => .int n
  | .str _ => .str MASK
  | .list _ => .str MASK
  | .dict _ => .str MASK

mutual

/-- Recursive body of `redact_auto` with the key set already unioned
(the Python recursion passes the full union down, so the per-call union
with the defaults is the identity from the second level on). -/
def redactAutoV (keys : List String) : PyVal → PyVal
  | .dict xs => .dict (redactAutoD keys xs)
  | .list xs => .list (redactAutoL keys xs)
  | v => v

def redactAutoL (keys : List String) : List PyVal → List PyVal
  | [] => []
  | x :: xs => redactAutoV keys x :: redactAutoL keys xs

def redactAutoD (keys : List String) : List (String × PyVal) → List (String × PyVal)
  | [] => []
  | (k, v) :: xs =>
      (if keys.contains k then (k, mask_value v) else (k, redactAutoV keys v))
        :: redactAutoD keys xs

end

/-- `redact_auto(obj, extra_keys)` of redaction.py: the key set is the
default PII keys unioned with `extra_keys` (an absent or empty
`extra_keys` adds nothing). -/
def redact_auto (obj : PyVal) (extra_keys : Option (List String)) : PyVal :=
  redactAutoV (DEFAULT_PII_KEYS ++ extra_keys.getD []) obj

/-- The `Decision` enum of types.py. -/
inductive Decision where
  | allow
  | deny
  | allow_with_redaction
  | require_approval
  | rewrite_output
deriving DecidableEq

/-- `ResultMeta` of types.py.  `sensitivity` and `egress` are strings in
Python (typing.Literal is not enforced at runtime), so they stay strings
here; `from_dict` is what constrains them. -/
structure ResultMeta where
  sensitivity : String := "low"
  tags : List String := []
  rows : Int := 0
  bytes : Int := 0
  egress : String := "internal"
  destination : String := ""
deriving DecidableEq

namespace ResultMeta

/-- `ResultMeta.from_dict(d)` of types.py.  `d or \x7b\x7d` maps `Option.none`
to the empty dict.  The `sens not in (...)` membership test compares a
dynamic value against three string literals, so any non-string value is
invalid and defaults; likewise for `egress`.  The only fallible Python
operation, `int(x)`, is wrapped in `try/except` in the source and is
modelled by the total `toIntOr0`. -/
def from_dict (d? : Option PyDict) : ResultMeta :=
  let d := d?.getD []
  let sens : String :=
    match d.get "sensitivity" with
    | Option.some (.str s) =>
        if s = "low" ∨ s = "medium" ∨ s = "high" then s else "low"
    | Option.some _ => "low"
    | Option.none => "low"
  let egr : String :=
    match d.get "egress" with
    | Option.some (.str s) =>
        if s = "internal" ∨ s = "external" then s else "internal"
    | Option.some _ => "internal"
    | Option.none => "internal"
  let tags : List String :=
    match d.get "tags" with
    | Option.none => []
    | Option.some .none => []
    | Option.some (.list xs) => xs.map pyStr
    | Option.some v => [pyStr v]
  let dest : String :=
    match d.get "destination" with
    | Option.none => ""
    | Option.some .none => ""
    | Option.some v => pyStr v
  { sensitivity := sens
    tags := tags
    rows := toIntOr0 ((d.get "rows").getD (.int 0))
    bytes := toIntOr0 ((d.get "bytes").getD (.int 0))
    egress := egr
    destination := dest }

/-- `ResultMeta.to_dict` of types.py. -/
def to_dict (m : ResultMeta) : PyDict :=
  [("sensitivity", .str m.sensitivity),
   ("tags", .list (m.tags.map .str)),
   ("rows", .int m.rows),
   ("bytes", .int m.bytes),
   ("egress", .str m.egress),
   ("destination", .str m.destination)]

end ResultMeta

/-- `Action` of types.py.  `params` is opaque to the engine. -/
structure Action where
  tool : String
  resource : String
  operation : String
  params : PyDict := []
  result_meta : PyDict := []

namespace Action

/-- `Action.normalized_meta` of types.py. -/
def normalized_meta (a : Action) : ResultMeta :=
  ResultMeta.from_dict (Option.some a.result_meta)

/-- `Action.normalize_meta` of types.py: in-place normalization becomes a
functional update of `result_meta`. -/
def normalize_meta (a : Action) : Action :=
  { a with result_meta := a.normalized_meta.to_dict }

end Action

/-- `TraceState` of types.py. -/
structure TraceState where
  trace_id : String
  seen_sources : List String := []
  max_sensitivity : String := "low"
  volume_rows : Int := 0
  volume_bytes : Int := 0
  egress : String := "internal"
  tags : List String := []

/-- `PolicyResult` of types.py. -/
structure PolicyResult where
  decision : Decision
  reason : String
  redactions : Option PyDict := Option.none
  approval_key : Option String := Option.none
  output_rewrite : Option String := Option.none
  policy_id : Option String := Option.none

/-- Character-list prefix test (`l` begins with `n`). -/
def chStartsWith : List Char → List Char → Bool
  | [], _ => true
  | _ :: _, [] => false
  | a :: as, b :: bs => a = b && chStartsWith as bs

/-- Character-list substring test: does `h` contain `n` contiguously? -/
def chHasSubstr (n : List Char) : List Char → Bool
  | [] => chStartsWith n []
  | c :: t => chStartsWith n (c :: t) || chHasSubstr n t

/-- Python `needle in hay` on strings. -/
def strIn (needle hay : String) : Bool :=
  chHasSubstr needle.data hay.data

/-- Python `str.lower()` (ASCII; the engine only compares ASCII
literals).  Written over the character list so that it reduces inside
kernel evaluation. -/
def pyLower (s : String) : String := String.mk (s.data.map Char.toLower)

/-- Python `s.split("/", 1)[0]`: the part before the first slash (the
whole string when there is none). -/
def beforeFirstSlash (s : String) : String :=
  String.mk (s.data.takeWhile (fun c => c ≠ '/'))

/-! ## tracer.py -/

/-- `SENS_RANK.get(s, 0)` of tracer.py: low 0, medium 1, high 2,
anything else 0. -/
def SENS_RANK (s : String) : Nat :=
  if s = "medium" then 1 else if s = "high" then 2 else 0

/-- `TraceAccumulator._source_for` of tracer.py: prefer the tool name;
fall back to the resource prefix before the first slash when the resource
contains one, then to the resource itself, then to "unknown".  Python
truthiness on strings is the non-empty test. -/
def source_for (a : Action) : String :=
  if a.tool ≠ "" then a.tool
  else if a.resource ≠ "" ∧ a.resource.data.contains '/' then
    beforeFirstSlash a.resource
  else if a.resource ≠ "" then a.resource
  else "unknown"

/-- `TraceAccumulator.update_state_from_action` of tracer.py, as explicit
state passing: returns the updated trace state, the action with its
metadata normalized in place, and the normalized metadata. -/
def update_state_from_action (st : TraceState) (a : Action) :
    TraceState × Action × ResultMeta :=
  let a' := a.normalize_meta
  let meta := a'.normalized_meta
  let source := source_for a'
  let seen :=
    if st.seen_sources.contains source then st.seen_sources
    else st.seen_sources ++ [source]
  let maxSens :=
    if SENS_RANK meta.sensitivity > SENS_RANK st.max_sensitivity
    then meta.sensitivity else st.max_sensitivity
  let egress :=
    if st.egress ≠ "external" ∧ meta.egress = "external" then "external"
    else st.egress
  let tags := meta.tags.foldl
    (fun acc t => if acc.contains t then acc else acc ++ [t]) st.tags
  ({ st with
      seen_sources := seen
      max_sensitivity := maxSens
      volume_rows := st.volume_rows + meta.rows
      volume_bytes := st.volume_bytes + meta.bytes
      egress := egress
      tags := tags },
   a', meta)

/-- Folding a whole sequence of actions through one accumulator
(the state component of repeated `update_state_from_action`). -/
def runTrace (st : TraceState) (acts : List Action) : TraceState :=
  acts.foldl (fun s a => (update_state_from_action s a).1) st

/-! ## denylist.py -/

/-- Oracles for the Python standard-library primitives used by
denylist.py, which are outside this repository: `re.search` on a pattern
compiled with `re.IGNORECASE`, `Path(...).expanduser()` (as a string
transformation), `Path(a).match(glob)` and `Path` equality.  Every
repository-level decision (category dispatch, pattern order, reasons,
precedence) is translated concretely below, parameterized by these. -/
structure PyLib where
  reSearch : String → String → Bool
  expanduser : String → String
  pathMatch : String → String → Bool
  pathEq : String → String → Bool
  reSub : String → String → String → String

/-- A denylist: three pattern lists.  The Python constructor compiles the
url and command patterns; the compiled object retains the original
pattern string (`pattern.pattern`), which is what the lists hold here. -/
structure Denylist where
  url_patterns : List String
  file_patterns : List String
  command_patterns : List String
deriving DecidableEq

/-- `DEFAULT_DENYLIST` of denylist.py. -/
def DEFAULT_DENYLIST : Denylist :=
  { url_patterns :=
      ["/checkout", "/payment", "/billing", "/subscribe", "/cart/confirm",
       "/order/place", "/upgrade",
       "stripe.com/checkout", "paddle.com/checkout", "paypal.com/checkoutnow",
       "buy.stripe.com", "checkout.stripe.com"]
    file_patterns :=
      ["~/.ssh/id_rsa", "~/.ssh/id_ed25519", "**/id_rsa", "**/id_ed25519",
       "~/.aws/credentials", "~/.aws/config", "~/.config/gcloud/credentials",
       "~/.azure/credentials",
       "**/secrets.json", "**/.env", "**/credentials.json",
       "~/.password-store", "**/KeePass*.kdbx"]
    command_patterns :=
      ["rm -rf /", "dd if=/dev/zero", "mkfs", "fdisk",
       "sudo su", "sudo -i", "curl.*|.*sh", "wget.*|.*sh"] }

/-- Tool names checked against url patterns. -/
def urlTools : List String := ["browser_navigate", "browser", "http_get", "http_post"]

/-- Tool names checked against file patterns. -/
def fileTools : List String := ["file_read", "file_write", "file_delete"]

/-- Tool names checked against command patterns. -/
def cmdTools : List String := ["shell_exec", "exec", "command"]

/-- The observable state of the per-user denylist configuration file.
`absent`: the path does not exist.  `unreadable`: it exists but `open`
raises.  `corrupt`: it exists, opens, and `yaml.safe_load` raises.
`parsedEmpty`: `yaml.safe_load` returns None (so `or \x7b\x7d` yields the
empty dict).  `parsed`: a mapping parsed successfully; the three lists
are what `patterns.get(category, [])` returns for it. -/
inductive DenylistConfig where
  | absent
  | unreadable
  | corrupt
  | parsedEmpty
  | parsed (urls files commands : List String)

namespace Denylist

/-- `Denylist.load` of denylist.py.  When the path does not exist the
defaults are used; when it exists, `open` and `yaml.safe_load` may raise,
which the source does not catch, so the result is an `Except`. -/
def load (cfg : DenylistConfig) : Except String Denylist :=
  match cfg with
  | .absent => .ok DEFAULT_DENYLIST
  | .unreadable => .error "OSError"
  | .corrupt => .error "YAMLError"
  | .parsedEmpty => .ok ⟨[], [], []⟩
  | .parsed u f c => .ok ⟨u, f, c⟩

/-- The url block of `is_blocked`: checked only for browser/HTTP tools,
first pattern whose compiled regex search hits wins. -/
def urlHit (lib : PyLib) (dl : Denylist) (resource tool : String) : Option String :=
  if urlTools.contains tool then
    dl.url_patterns.findSome? (fun p =>
      if lib.reSearch p resource then
        Option.some ("URL matches denylist pattern: " ++ p)
      else Option.none)
  else Option.none

/-- The file block of `is_blocked`: checked only for file tools; a
pattern containing `*` glob-matches the user-expanded resource path, any
other pattern matches by path equality or raw string equality. -/
def fileHit (lib : PyLib) (dl : Denylist) (resource tool : String) : Option String :=
  if fileTools.contains tool then
    let expanded := lib.expanduser resource
    dl.file_patterns.findSome? (fun p =>
      if p.data.contains '*' then
        if lib.pathMatch expanded p then
          Option.some ("File matches denylist pattern: " ++ p)
        else Option.none
      else if lib.pathEq expanded (lib.expanduser p) || expanded == p then
        Option.some ("File is denylisted: " ++ p)
      else Option.none)
  else Option.none

/-- The command block of `is_blocked`: checked only for shell/exec
tools. -/
def cmdHit (lib : PyLib) (dl : Denylist) (resource tool : String) : Option String :=
  if cmdTools.contains tool then
    dl.command_patterns.findSome? (fun p =>
      if lib.reSearch p resource then
        Option.some ("Command matches denylist pattern: " ++ p)
      else Option.none)
  else Option.none

/-- `Denylist.is_blocked(resource, tool)` of denylist.py: three category
blocks checked in order (urls, files, commands), each only when the tool
belongs to that category, first matching pattern wins; the reason names
the category and the pattern string. -/
def is_blocked (lib : PyLib) (dl : Denylist) (resource tool : String) :
    Bool × Option String :=
  match urlHit lib dl resource tool with
  | Option.some r => (true, Option.some r)
  | Option.none =>
  match fileHit lib dl resource tool with
  | Option.some r => (true, Option.some r)
  | Option.none =>
  match cmdHit lib dl resource tool with
  | Option.some r => (true, Option.some r)
  | Option.none => (false, Option.none)

/-- The patterns that `is_blocked` can consult for a given tool: the
union of the categories the tool belongs to. -/
def categoryPatterns (dl : Denylist) (tool : String) : List String :=
  (if urlTools.contains tool then dl.url_patterns else [])
    ++ (if fileTools.contains tool then dl.file_patterns else [])
    ++ (if cmdTools.contains tool then dl.command_patterns else [])

end Denylist

/-! ## policy.py -/

/-- `SENSITIVITY_WEIGHT.get(s, 1)` of policy.py. -/
def SENSITIVITY_WEIGHT (s : String) : Int :=
  if s = "medium" then 3 else if s = "high" then 6 else 1

/-- `RISK_ALLOW_MAX` of policy.py. -/
def RISK_ALLOW_MAX : Int := 5

/-- `RISK_REDACT_MAX` of policy.py. -/
def RISK_REDACT_MAX : Int := 10

/-- `RISK_APPROVAL_MIN` of policy.py. -/
def RISK_APPROVAL_MIN : Int := 11

/-- `_risk_score` of policy.py: cumulative deterministic scoring.  The
`state` parameter is received (as in the source) and never read. -/
def riskScore (meta : ResultMeta) (state : TraceState) (isNewSource : Bool) : Int :=
  let r0 : Int := 0
  let r1 := r0 + SENSITIVITY_WEIGHT meta.sensitivity
  let r2 := r1 + (if meta.rows > 1000 then 3 else 0)
  let r3 := r2 + (if meta.rows > 10000 then 6 else 0)
  let r4 := r3 + (if isNewSource then 2 else 0)
  let r5 := r4 + (if meta.egress = "external" then 6 else 0)
  r5

/-- Python f-string rendering of an `Optional[str]`. -/
def pyFStrOpt : Option String → String
  | Option.none => "None"
  | Option.some s => s

/-- The source identifier line of `evaluate`:
`action.tool or action.resource.split("/", 1)[0]`. -/
def policySource (a : Action) : String :=
  if a.tool ≠ "" then a.tool else beforeFirstSlash a.resource

/-- The risk that `evaluate` computes for an action: metadata is first
normalized in place, then scored with the new-source flag. -/
def evalRisk (a : Action) (state : TraceState) : Int :=
  riskScore a.normalize_meta.normalized_meta state
    (!(state.seen_sources.contains (policySource a)))

/-- The denylist `evaluate` ends up consulting: the supplied one, else
the result of `Denylist.load` guarded by `try/except pass` (a failed
load leaves it as None). -/
def effectiveDenylist (cfg : DenylistConfig) (dl? : Option Denylist) :
    Option Denylist :=
  match dl? with
  | Option.some d => Option.some d
  | Option.none =>
      match Denylist.load cfg with
      | .ok d => Option.some d
      | .error _ => Option.none

/-- The denylist block at the head of `evaluate`: when a denylist is at
hand and reports blocked, the hard deny result; otherwise nothing. -/
def denyIfBlocked (lib : PyLib) (dl : Option Denylist) (resource tool : String) :
    Option PolicyResult :=
  match dl with
  | Option.some d =>
      match Denylist.is_blocked lib d resource tool with
      | (true, reason) =>
          Option.some
            { decision := .deny
              reason := "Denylisted: " ++ pyFStrOpt reason
              policy_id := Option.some "denylist.block" }
      | (false, _) => Option.none
  | Option.none => Option.none

/-- `evaluate` of policy.py.  The in-place metadata normalization of the
action is applied functionally inside `evalRisk`; the denylist check
precedes it, exactly as in the source. -/
def evaluate (lib : PyLib) (cfg : DenylistConfig) (action : Action)
    (state : TraceState) (purpose : String) (denylist : Option Denylist) :
    PolicyResult :=
  match denyIfBlocked lib (effectiveDenylist cfg denylist)
      action.resource action.tool with
  | Option.some r => r
  | Option.none =>
    let risk := evalRisk action state
    if purpose = "SOC_efficiency" ∧ strIn "salary" (pyLower action.resource) then
      { decision := .require_approval
        reason := "Access to salary data is not allowed for SOC efficiency tasks without approval."
        approval_key := Option.some "soc_salary_access"
        policy_id := Option.some "purpose.SOC_efficiency.salary" }
    else if risk ≥ RISK_APPROVAL_MIN then
      { decision := .require_approval
        reason := "High cumulative risk (risk=" ++ toString risk
          ++ ") based on sensitivity, volume, and chain context."
        approval_key := Option.some "high_risk_action"
        policy_id := Option.some "risk.high" }
    else if risk > RISK_ALLOW_MAX then
      { decision := .allow_with_redaction
        reason := "Moderate risk (risk=" ++ toString risk
          ++ "); sensitive fields must be redacted."
        redactions := Option.some [("auto", .bool true)]
        policy_id := Option.some "risk.moderate" }
    else
      { decision := .allow
        reason := "Low risk action (risk=" ++ toString risk ++ ")."
        policy_id := Option.some "risk.low" }

/-! ## enforcement.py -/

/-- `rewrite_output_text` of redaction.py: two fixed regex substitutions
(email-like, phone-like) then the caller-supplied patterns in order.
`re.sub` is a library primitive, taken from the `PyLib` oracle. -/
def rewrite_output_text (lib : PyLib) (text : String)
    (patterns : Option (List String)) : String :=
  let out := lib.reSub "[A-Za-z0-9._%+-]+@[A-Za-z0-9.-]+\\.[A-Za-z]\x7b2,\x7d" MASK text
  let out := lib.reSub "\\+?\\d[\\d\\-\\s]\x7b7,\x7d\\d" MASK out
  match patterns with
  | Option.some ps => ps.foldl (fun o p => lib.reSub p MASK o) out
  | Option.none => out

/-- A dynamic value used as an iterable of key strings (the
`extra_keys` / `patterns` directives, annotated `Iterable[str]`).
Iterating a string yields its characters; non-string elements of a list
are dropped, which is observationally equal for string-keyed dicts. -/
def pyStrKeys : PyVal → List String
  | .list xs => xs.filterMap (fun v => match v with
      | .str s => Option.some s
      | _ => Option.none)
  | .str s => s.data.map (fun c => String.mk [c])
  | _ => []

/-- Extract a directive value from `result.redactions` the way `enforce`
does: `if result.redactions and key in result.redactions` (an empty dict
is falsy). -/
def directive (rd : Option PyDict) (key : String) : Option PyVal :=
  match rd with
  | Option.some d => if d.isEmpty then Option.none else d.get key
  | Option.none => Option.none

/-- `enforce` of enforcement.py.  Raising `EnforcementError(msg)` is the
`Except.error msg` branch. -/
def enforce (lib : PyLib) (result : PolicyResult) (data : PyVal) :
    Except String PyVal :=
  if result.decision = .deny then .error result.reason
  else if result.decision = .allow then .ok data
  else if result.decision = .allow_with_redaction then
    let extra : Option (List String) :=
      (directive result.redactions "extra_keys").map pyStrKeys
    .ok (redact_auto data extra)
  else if result.decision = .require_approval then
    .error ("Approval required: " ++ pyFStrOpt result.approval_key
      ++ " (" ++ result.reason ++ ")")
  else if result.decision = .rewrite_output then
    match data with
    | .str s =>
        let patterns : Option (List String) :=
          (directive result.redactions "patterns").map pyStrKeys
        .ok (.str (rewrite_output_text lib s patterns))
    | _ => .ok (.str (result.output_rewrite.getD ""))
  else .ok data

/-! ## Concrete instances used to evaluate the engine -/

/-- A concrete instantiation of the library oracles, used to run the
engine on concrete inputs: regex search as case-insensitive literal
substring search (exact for the literal patterns exercised), identity
user expansion, string equality as path equality, identity substitution. -/
def sampleLib : PyLib :=
  { reSearch := fun p t => strIn (pyLower p) (pyLower t)
    expanduser := fun s => s
    pathMatch := fun _ _ => false
    pathEq := fun a b => a = b
    reSub := fun _ _ t => t }

/-- A fresh trace state, as the tracer would create it. -/
def initialState : TraceState := { trace_id := "t-0" }

/-- An action whose raw metadata carries a negative row count. -/
def negRowsAction : Action :=
  { tool := "db", resource := "db/query", operation := "query"
    result_meta := [("rows", .int (-5))] }

/-- The denylisted-checkout scenario action from the spec. -/
def stripeAction : Action :=
  { tool := "http_post", resource := "https://stripe.com/checkout/session"
    operation := "write" }

/-- A high-sensitivity action with external egress. -/
def extHighAction : Action :=
  { tool := "exporter", resource := "hr/export", operation := "write"
    result_meta := [("sensitivity", .str "high"), ("rows", .int 20),
      ("egress", .str "external")] }

/-- A low-risk read action (the org-chart scenario from the spec). -/
def orgChartAction : Action :=
  { tool := "org_chart", resource := "orgchart/read", operation := "read"
    result_meta := [("sensitivity", .str "low"), ("rows", .int 10)] }

/-- A denylist with no patterns at all. -/
def emptyDenylist : Denylist := ⟨[], [], []⟩

/-! ## Helper lemmas -/

/-- The sensitivity produced by normalization is one of the three
recognized levels. -/
theorem from_dict_sensitivity_cases (d? : Option PyDict) :
    (ResultMeta.from_dict d?).sensitivity = "low" ∨
    (ResultMeta.from_dict d?).sensitivity = "medium" ∨
    (ResultMeta.from_dict d?).sensitivity = "high" := by
  have hs : (ResultMeta.from_dict d?).sensitivity =
      (match PyDict.get (d?.getD []) "sensitivity" with
        | Option.some (.str s) =>
            if s = "low" ∨ s = "medium" ∨ s = "high" then s else "low"
        | Option.some _ => "low"
        | Option.none => "low") := rfl
  rw [hs]
  rcases h : PyDict.get (d?.getD []) "sensitivity" with _ | v
  · left; rfl
  · cases v
    case str s =>
      by_cases hv : s = "low" ∨ s = "medium" ∨ s = "high"
      · rcases hv with h1 | h1 | h1 <;> subst h1 <;> decide
      · left
        show (if s = "low" ∨ s = "medium" ∨ s = "high" then s else "low") = "low"
        rw [if_neg hv]
    all_goals left; rfl

/-- The egress produced by normalization is internal or external. -/
theorem from_dict_egress_cases (d? : Option PyDict) :
    (ResultMeta.from_dict d?).egress = "internal" ∨
    (ResultMeta.from_dict d?).egress = "external" := by
  have hs : (ResultMeta.from_dict d?).egress =
      (match PyDict.get (d?.getD []) "egress" with
        | Option.some (.str s) =>
            if s = "internal" ∨ s = "external" then s else "internal"
        | Option.some _ => "internal"
        | Option.none => "internal") := rfl
  rw [hs]
  rcases h : PyDict.get (d?.getD []) "egress" with _ | v
  · left; rfl
  · cases v
    case str s =>
      by_cases hv : s = "internal" ∨ s = "external"
      · rcases hv with h1 | h1 <;> subst h1 <;> decide
      · left
        show (if s = "internal" ∨ s = "external" then s else "internal") = "internal"
        rw [if_neg hv]
    all_goals left; rfl

/-- A string whose first component is non-empty stays non-empty under
concatenation. -/
theorem append_ne_empty_left (s t : String) (h : s.data ≠ []) : s ++ t ≠ "" := by
  intro he
  have : (s ++ t).data = ("" : String).data := by rw [he]
  rw [String.data_append] at this
  simp only [List.append_eq_nil] at this
  exact h this.1

/-! ## Claim C1 (corrected) -/

/-- C1, counterexample: the claim says every non-nullish value masks to
the sentinel, but `mask_value` passes numbers and booleans through
unchanged. -/
theorem mask_value_passthrough_counterexample :
    mask_value (.int 5) = .int 5 ∧ mask_value (.int 5) ≠ .str MASK ∧
    mask_value (.bool true) = .bool true ∧
    mask_value (.bool true) ≠ .str MASK :=
  ⟨rfl, fun h => PyVal.noConfusion h, rfl, fun h => PyVal.noConfusion h⟩

/-- C1, amended: `mask_value` maps None to None, passes numbers and
booleans through unchanged, and masks strings and every structured value
to the sentinel. -/
theorem mask_value_cases :
    mask_value .none = .none ∧
    (∀ b, mask_value (.bool b) = .bool b) ∧
    (∀ n, mask_value (.int n) = .int n) ∧
    (∀ s, mask_value (.str s) = .str MASK) ∧
    (∀ xs, mask_value (.list xs) = .str MASK) ∧
    (∀ xs, mask_value (.dict xs) = .str MASK) :=
  ⟨rfl, fun _ => rfl, fun _ => rfl, fun _ => rfl, fun _ => rfl, fun _ => rfl⟩

/-! ## Claim C4 (corrected) -/

/-- C4, counterexample: normalization does not clamp negative row or
byte counts, so the claimed non-negativity fails. -/
theorem from_dict_negative_rows_counterexample :
    (ResultMeta.from_dict (Option.some [("rows", .int (-1))])).rows = -1 ∧
    ¬(0 ≤ (ResultMeta.from_dict (Option.some [("rows", .int (-1))])).rows) := by
  constructor
  · rfl
  · rw [(rfl : (ResultMeta.from_dict (Option.some [("rows", .int (-1))])).rows = -1)]
    decide

/-- C4, amended: `ResultMeta.from_dict` is total (every fallible Python
operation in its body is guarded in the source, so it is a plain
function here); its sensitivity is always one of low/medium/high and
defaults to "low" whenever the input holds no valid sensitivity string;
its egress is always internal or external and defaults to "internal"
likewise; rows and bytes are integers that coerce to 0 on unparseable
input, but are not clamped to be non-negative. -/
theorem from_dict_total_and_defaults :
    ∀ d? : Option PyDict,
      ((ResultMeta.from_dict d?).sensitivity = "low" ∨
        (ResultMeta.from_dict d?).sensitivity = "medium" ∨
        (ResultMeta.from_dict d?).sensitivity = "high") ∧
      ((ResultMeta.from_dict d?).egress = "internal" ∨
        (ResultMeta.from_dict d?).egress = "external") ∧
      ((∀ s, PyDict.get (d?.getD []) "sensitivity" = Option.some (.str s) →
          ¬(s = "low" ∨ s = "medium" ∨ s = "high")) →
        (ResultMeta.from_dict d?).sensitivity = "low") ∧
      ((∀ s, PyDict.get (d?.getD []) "egress" = Option.some (.str s) →
          ¬(s = "internal" ∨ s = "external")) →
        (ResultMeta.from_dict d?).egress = "internal") ∧
      (ResultMeta.from_dict Option.none).rows = 0 ∧
      (ResultMeta.from_dict Option.none).bytes = 0 := by
  intro d?
  refine ⟨from_dict_sensitivity_cases d?, from_dict_egress_cases d?, ?_, ?_, rfl, rfl⟩
  · intro hinv
    have hs : (ResultMeta.from_dict d?).sensitivity =
        (match PyDict.get (d?.getD []) "sensitivity" with
          | Option.some (.str s) =>
              if s = "low" ∨ s = "medium" ∨ s = "high" then s else "low"
          | Option.some _ => "low"
          | Option.none => "low") := rfl
    rw [hs]
    rcases h : PyDict.get (d?.getD []) "sensitivity" with _ | v
    · rfl
    · cases v
      case str s =>
        show (if s = "low" ∨ s = "medium" ∨ s = "high" then s else "low") = "low"
        rw [if_neg (hinv s h)]
      all_goals rfl
  · intro hinv
    have hs : (ResultMeta.from_dict d?).egress =
        (match PyDict.get (d?.getD []) "egress" with
          | Option.some (.str s) =>
              if s = "internal" ∨ s = "external" then s else "internal"
          | Option.some _ => "internal"
          | Option.none => "internal") := rfl
    rw [hs]
    rcases h : PyDict.get (d?.getD []) "egress" with _ | v
    · rfl
    · cases v
      case str s =>
        show (if s = "internal" ∨ s = "external" then s else "internal") = "internal"
        rw [if_neg (hinv s h)]
      all_goals rfl

/-- C4 witness: the amended theorem evaluated at a dictionary with a
non-string sensitivity and a numeric egress. -/
theorem from_dict_total_and_defaults_witness :
    (ResultMeta.from_dict
      (Option.some [("sensitivity", .int 3), ("egress", .int 1)])).sensitivity = "low" ∧
    (ResultMeta.from_dict
      (Option.some [("sensitivity", .int 3), ("egress", .int 1)])).egress = "internal" := by
  have h := from_dict_total_and_defaults
    (Option.some [("sensitivity", .int 3), ("egress", .int 1)])
  refine ⟨h.2.2.1 ?_, h.2.2.2.1 ?_⟩
  · intro s hs
    have hc : Option.some (PyVal.int 3) = Option.some (PyVal.str s) := hs
    exact PyVal.noConfusion (Option.some.inj hc)
  · intro s hs
    have hc : Option.some (PyVal.int 1) = Option.some (PyVal.str s) := hs
    exact PyVal.noConfusion (Option.some.inj hc)

/-! ## Claim C8 (corrected) -/

/-- C8, counterexample: loading a configuration whose content is corrupt
(or whose file is unreadable) raises instead of returning a Denylist —
the `yaml.safe_load` / `open` calls in `Denylist.load` are not guarded
(the guard lives in the caller, `evaluate`). -/
theorem denylist_load_corrupt_counterexample :
    (Denylist.load .corrupt).isOk = false ∧
    (Denylist.load .unreadable).isOk = false := ⟨rfl, rfl⟩

/-- C8, amended: `Denylist.load` returns the built-in default pattern
set when the configuration path is absent, and the parsed content when
the file is readable and parses (a file that parses to nothing yields
empty pattern sets); it raises when the file exists but is unreadable or
its content corrupt. -/
theorem denylist_load_cases :
    Denylist.load .absent = .ok DEFAULT_DENYLIST ∧
    Denylist.load .parsedEmpty = .ok ⟨[], [], []⟩ ∧
    (∀ u f c, Denylist.load (.parsed u f c) = .ok ⟨u, f, c⟩) ∧
    (Denylist.load .corrupt).isOk = false ∧
    (Denylist.load .unreadable).isOk = false :=
  ⟨rfl, rfl, fun _ _ _ => rfl, rfl, rfl⟩

/-! ## Claim C9 (confirmed) -/

/-- C9: `enforce` raises EnforcementError carrying the reason on deny,
is the identity on allow, and on require_approval raises an
EnforcementError whose message embeds both the approval key (rendered as
Python renders the optional) and the reason. -/
theorem enforce_decision_cases :
    ∀ (lib : PyLib) (result : PolicyResult) (data : PyVal),
      (result.decision = .deny → enforce lib result data = .error result.reason) ∧
      (result.decision = .allow → enforce lib result data = .ok data) ∧
      (result.decision = .require_approval →
        enforce lib result data =
          .error ("Approval required: " ++ pyFStrOpt result.approval_key
            ++ " (" ++ result.reason ++ ")")) := by
  intro lib result data
  refine ⟨?_, ?_, ?_⟩ <;> intro h <;> simp [enforce, h]

/-- C9 witness: the three branches evaluated at concrete results. -/
theorem enforce_decision_cases_witness :
    enforce sampleLib { decision := .deny, reason := "blocked" } (.int 1)
      = .error "blocked" ∧
    enforce sampleLib { decision := .allow, reason := "fine" } (.int 1)
      = .ok (.int 1) ∧
    enforce sampleLib
        { decision := .require_approval, reason := "risky",
          approval_key := Option.some "high_risk_action" } (.int 1)
      = .error "Approval required: high_risk_action (risky)" := by
  refine ⟨(enforce_decision_cases sampleLib _ _).1 rfl,
    (enforce_decision_cases sampleLib _ _).2.1 rfl, ?_⟩
  have h := (enforce_decision_cases sampleLib
    { decision := .require_approval, reason := "risky",
      approval_key := Option.some "high_risk_action" } (.int 1)).2.2 rfl
  exact h.trans (by rfl)

/-! ## Claim C10 (confirmed) -/

/-- `takeWhile` of a list containing no slash is the list itself. -/
theorem takeWhile_no_slash (cs : List Char) (h : cs.contains '/' = false) :
    cs.takeWhile (fun c => c ≠ '/') = cs := by
  rw [List.takeWhile_eq_self_iff]
  intro x hx
  simp only [ne_eq, decide_not, Bool.not_eq_true', decide_eq_false_iff_not]
  intro he
  subst he
  have : cs.contains '/' = true := List.elem_eq_true_of_mem hx
  rw [this] at h
  exact Bool.noConfusion h

/-- C10: whenever tool or resource is non-empty, the source identifier
used by `evaluate` for the new-source surcharge coincides with the one
the accumulator appends to `seen_sources`. -/
theorem source_identifiers_agree :
    ∀ a : Action, (a.tool ≠ "" ∨ a.resource ≠ "") →
      policySource a = source_for a := by
  intro a h
  by_cases ht : a.tool = ""
  · have hr : a.resource ≠ "" := by
      rcases h with h | h
      · exact absurd ht h
      · exact h
    by_cases hsl : a.resource.data.contains '/'
    · have hmem : '/' ∈ a.resource.data := by
        simpa [List.contains_iff_exists_mem_beq, eq_comm] using hsl
      simp [policySource, source_for, ht, hr, hsl, hmem, beforeFirstSlash]
    · have hns : a.resource.data.contains '/' = false := by
        simpa using hsl
      simp only [policySource, source_for, ht, hr, hns, beforeFirstSlash,
        ne_eq, not_true_eq_false, if_false, and_false, if_neg,
        not_false_eq_true, if_true]
      rw [takeWhile_no_slash _ hns]
      simp [if_neg, hr]
  · simp [policySource, source_for, ht]

/-- C10 witness: agreement evaluated on a concrete action. -/
theorem source_identifiers_agree_witness :
    (Action.tool { tool := "", resource := "hr/salary", operation := "read" } ≠ "" ∨
      Action.resource { tool := "", resource := "hr/salary", operation := "read" } ≠ "") ∧
    policySource { tool := "", resource := "hr/salary", operation := "read" }
      = source_for { tool := "", resource := "hr/salary", operation := "read" } := by
  refine ⟨Or.inr (by decide), ?_⟩
  exact source_identifiers_agree
    { tool := "", resource := "hr/salary", operation := "read" } (Or.inr (by decide))

/-! ## Claim C6 (confirmed) -/

/-- C6: for every normalized metadata (any raw dictionary pushed through
`ResultMeta.from_dict`), the risk score is exactly the sum of the
sensitivity weight (low 1, medium 3, high 6), +3 for rows above 1,000,
a further +6 for rows above 10,000, +6 for external egress and +2 for a
new source; and the score does not depend on the trace state (the pure
function reads none of it). -/
theorem risk_score_formula :
    ∀ (d? : Option PyDict) (st st' : TraceState) (b : Bool),
      riskScore (ResultMeta.from_dict d?) st b =
        (if (ResultMeta.from_dict d?).sensitivity = "low" then 1
         else if (ResultMeta.from_dict d?).sensitivity = "medium" then 3 else 6)
        + (if (ResultMeta.from_dict d?).rows > 1000 then 3 else 0)
        + (if (ResultMeta.from_dict d?).rows > 10000 then 6 else 0)
        + (if (ResultMeta.from_dict d?).egress = "external" then 6 else 0)
        + (if b then 2 else 0) ∧
      riskScore (ResultMeta.from_dict d?) st b
        = riskScore (ResultMeta.from_dict d?) st' b := by
  intro d? st st' b
  refine ⟨?_, rfl⟩
  rcases from_dict_sensitivity_cases d? with hs | hs | hs <;>
    simp [riskScore, SENSITIVITY_WEIGHT, hs] <;> ring

/-! ## Claim C2 (corrected) -/

mutual

/-- Does a value contain, at any nesting depth, a dict entry whose key
belongs to `keys`? -/
def hasKeyV (keys : List String) : PyVal → Bool
  | .dict xs => hasKeyD keys xs
  | .list xs => hasKeyL keys xs
  | _ => false

def hasKeyL (keys : List String) : List PyVal → Bool
  | [] => false
  | x :: xs => hasKeyV keys x || hasKeyL keys xs

def hasKeyD (keys : List String) : List (String × PyVal) → Bool
  | [] => false
  | (k, v) :: xs => keys.contains k || hasKeyV keys v || hasKeyD keys xs

end

mutual

/-- Values free of redaction keys are returned unchanged. -/
theorem redactAutoV_id (keys : List String) :
    ∀ v, hasKeyV keys v = false → redactAutoV keys v = v
  | .dict xs, h => by
      rw [redactAutoV, redactAutoD_id keys xs (by simpa [hasKeyV] using h)]
  | .list xs, h => by
      rw [redactAutoV, redactAutoL_id keys xs (by simpa [hasKeyV] using h)]
  | .none, _ => rfl
  | .bool _, _ => rfl
  | .int _, _ => rfl
  | .str _, _ => rfl

theorem redactAutoL_id (keys : List String) :
    ∀ xs, hasKeyL keys xs = false → redactAutoL keys xs = xs
  | [], _ => rfl
  | x :: xs, h => by
      rw [redactAutoL]
      have hx : hasKeyV keys x = false ∧ hasKeyL keys xs = false := by
        simpa [hasKeyL, Bool.or_eq_false_iff] using h
      rw [redactAutoV_id keys x hx.1, redactAutoL_id keys xs hx.2]

theorem redactAutoD_id (keys : List String) :
    ∀ xs, hasKeyD keys xs = false → redactAutoD keys xs = xs
  | [], _ => rfl
  | (k, v) :: xs, h => by
      rw [redactAutoD]
      have hx : keys.contains k = false ∧ hasKeyV keys v = false ∧
          hasKeyD keys xs = false := by
        simpa [hasKeyD, Bool.or_eq_false_iff, and_assoc] using h
      rw [if_neg (by rw [hx.1]; decide), redactAutoV_id keys v hx.2.1,
        redactAutoD_id keys xs hx.2.2]

end

/-- Each dict level of `redact_auto` rewrites entry-wise: redaction keys
through `mask_value`, the rest recursively. -/
theorem redactAutoD_map (keys : List String) (xs : List (String × PyVal)) :
    redactAutoD keys xs = xs.map (fun kv =>
      if keys.contains kv.1 then (kv.1, mask_value kv.2)
      else (kv.1, redactAutoV keys kv.2)) := by
  induction xs with
  | nil => rfl
  | cons kv xs ih => cases kv; rw [redactAutoD, ih, List.map_cons]

/-- C2, counterexample: at the PII key "dob" a numeric value survives
redaction unmasked (so the redacted value is not the sentinel), and the
value of the non-PII key "team" is altered because redaction recurses
into it. -/
theorem redact_auto_counterexample :
    redact_auto (.dict [("dob", .int 7)]) Option.none
      = .dict [("dob", .int 7)] ∧
    PyVal.int 7 ≠ .str MASK ∧
    redact_auto (.dict [("team", .dict [("email", .str "x")])]) Option.none
      = .dict [("team", .dict [("email", .str MASK)])] ∧
    PyVal.dict [("email", .str MASK)] ≠ .dict [("email", .str "x")] := by
  refine ⟨rfl, fun h => PyVal.noConfusion h, rfl, fun h => ?_⟩
  have h1 := List.cons.inj (PyVal.dict.inj h)
  have h2 := (Prod.mk.injEq _ _ _ _).mp h1.1
  have h3 := PyVal.str.inj h2.2
  exact absurd h3 (by decide)

/-- C2, amended: for any mapping, `redact_auto` masks the value of every
key in the default PII set (unioned with `extra_keys`) through
`mask_value` — the sentinel for strings and structured values, while
numbers, booleans and null pass through — and recurses into every other
key's value, leaving it unaltered whenever it contains no PII key at any
nesting depth. -/
theorem redact_auto_dict_spec :
    ∀ (extra : Option (List String)) (xs : List (String × PyVal)),
      redact_auto (.dict xs) extra
        = .dict (xs.map (fun kv =>
            if (DEFAULT_PII_KEYS ++ extra.getD []).contains kv.1 then
              (kv.1, mask_value kv.2)
            else (kv.1, redactAutoV (DEFAULT_PII_KEYS ++ extra.getD []) kv.2))) ∧
      (∀ v, hasKeyV (DEFAULT_PII_KEYS ++ extra.getD []) v = false →
        redactAutoV (DEFAULT_PII_KEYS ++ extra.getD []) v = v) := by
  intro extra xs
  constructor
  · rw [redact_auto, redactAutoV, redactAutoD_map]
  · exact redactAutoV_id _

/-- C2 witness: the amended theorem evaluated on a concrete record with
a PII string, a PII number, and a PII-free nested value. -/
theorem redact_auto_dict_spec_witness :
    redact_auto (.dict [("email", .str "a@b"), ("dob", .int 7),
        ("team", .dict [("org", .str "Eng")])]) Option.none
      = .dict [("email", .str MASK), ("dob", .int 7),
        ("team", .dict [("org", .str "Eng")])] := by
  have h := redact_auto_dict_spec Option.none
    [("email", .str "a@b"), ("dob", .int 7), ("team", .dict [("org", .str "Eng")])]
  rw [h.1]
  have hteam := h.2 (.dict [("org", .str "Eng")]) rfl
  simp only [List.map_cons, List.map_nil]
  rw [show (DEFAULT_PII_KEYS ++ (Option.none : Option (List String)).getD []).contains
      "email" = true from rfl]
  rw [show (DEFAULT_PII_KEYS ++ (Option.none : Option (List String)).getD []).contains
      "dob" = true from rfl]
  rw [show (DEFAULT_PII_KEYS ++ (Option.none : Option (List String)).getD []).contains
      "team" = false from rfl]
  simp only [if_true, if_false, hteam]
  rfl

/-! ## Claim C3 (corrected) -/

/-- `pyStr` of a string value is the string itself. -/
theorem pyStr_str (s : String) : pyStr (.str s) = s := rfl

/-- Normalization is idempotent: re-normalizing an already normalized
metadata dictionary reproduces the same `ResultMeta`. -/
theorem normalize_idempotent (d? : Option PyDict) :
    ResultMeta.from_dict (Option.some (ResultMeta.from_dict d?).to_dict)
      = ResultMeta.from_dict d? := by
  have hs := from_dict_sensitivity_cases d?
  have he := from_dict_egress_cases d?
  rcases hm : ResultMeta.from_dict d? with ⟨sens, tags, rows, bytes, egr, dest⟩
  rw [hm] at hs he
  simp only [ResultMeta.to_dict]
  simp only [ResultMeta.from_dict, PyDict.get, List.find?]
  simp only at hs he
  simp [toIntOr0, List.map_map, Function.comp, pyStr_str]
  refine ⟨?_, ?_, ?_⟩
  · intro h1 h2 h3
    rcases hs with h | h | h
    · exact absurd h h1
    · exact absurd h h2
    · exact absurd h h3
  · have hc : (pyStr ∘ PyVal.str) = fun s : String => s := funext fun s => rfl
    rw [hc]
    simp
  · intro h1 h2
    rcases he with h | h
    · exact absurd h h1
    · exact absurd h h2

/-- Normalizing an action's metadata in place and reading it back gives
the single-normalization result. -/
theorem normalized_meta_normalize (a : Action) :
    a.normalize_meta.normalized_meta = a.normalized_meta :=
  normalize_idempotent (Option.some a.result_meta)

/-- What one `update_state_from_action` step does to the monotone
components of the state. -/
theorem update_state_step (st : TraceState) (a : Action) :
    SENS_RANK st.max_sensitivity
      ≤ SENS_RANK ((update_state_from_action st a).1).max_sensitivity ∧
    (st.egress = "external" →
      ((update_state_from_action st a).1).egress = "external") ∧
    ((update_state_from_action st a).1).volume_rows
      = st.volume_rows + a.normalized_meta.rows ∧
    ((update_state_from_action st a).1).volume_bytes
      = st.volume_bytes + a.normalized_meta.bytes := by
  refine ⟨?_, ?_, ?_, ?_⟩
  · have h : ((update_state_from_action st a).1).max_sensitivity =
        (if SENS_RANK a.normalize_meta.normalized_meta.sensitivity
            > SENS_RANK st.max_sensitivity
         then a.normalize_meta.normalized_meta.sensitivity
         else st.max_sensitivity) := rfl
    rw [h]
    by_cases hc : SENS_RANK a.normalize_meta.normalized_meta.sensitivity
        > SENS_RANK st.max_sensitivity
    · rw [if_pos hc]; exact le_of_lt hc
    · rw [if_neg hc]
  · intro hext
    have h : ((update_state_from_action st a).1).egress =
        (if st.egress ≠ "external" ∧
            a.normalize_meta.normalized_meta.egress = "external"
         then "external" else st.egress) := rfl
    rw [h, if_neg (fun hc => hc.1 hext)]
    exact hext
  · have h : ((update_state_from_action st a).1).volume_rows
        = st.volume_rows + a.normalize_meta.normalized_meta.rows := rfl
    rw [h, normalized_meta_normalize]
  · have h : ((update_state_from_action st a).1).volume_bytes
        = st.volume_bytes + a.normalize_meta.normalized_meta.bytes := rfl
    rw [h, normalized_meta_normalize]

/-- C3, counterexample: one action whose raw metadata reports -5 rows
makes the accumulated `volume_rows` decrease, because normalization does
not clamp negative counts. -/
theorem trace_volume_counterexample :
    (runTrace initialState [negRowsAction]).volume_rows
      < initialState.volume_rows := by
  have h : (runTrace initialState [negRowsAction]).volume_rows = -5 := rfl
  rw [h]
  decide

/-- Running a trace from any starting state: `max_sensitivity` rank and
(once reached) external egress only grow, and the volumes grow when the
actions' normalized rows/bytes are non-negative. -/
theorem runTrace_monotone_of_init :
    ∀ (acts : List Action) (st : TraceState),
      SENS_RANK st.max_sensitivity
        ≤ SENS_RANK (runTrace st acts).max_sensitivity ∧
      (st.egress = "external" → (runTrace st acts).egress = "external") ∧
      ((∀ a ∈ acts, 0 ≤ a.normalized_meta.rows ∧ 0 ≤ a.normalized_meta.bytes) →
        st.volume_rows ≤ (runTrace st acts).volume_rows ∧
        st.volume_bytes ≤ (runTrace st acts).volume_bytes) := by
  intro acts
  induction acts with
  | nil => exact fun st => ⟨le_refl _, fun h => h, fun _ => ⟨le_refl _, le_refl _⟩⟩
  | cons a acts ih =>
      intro st
      have hrun : runTrace st (a :: acts)
          = runTrace ((update_state_from_action st a).1) acts := rfl
      have hstep := update_state_step st a
      have hih := ih ((update_state_from_action st a).1)
      refine ⟨?_, ?_, ?_⟩
      · rw [hrun]; exact le_trans hstep.1 hih.1
      · intro hext
        rw [hrun]
        exact hih.2.1 (hstep.2.1 hext)
      · intro hall
        have ha := hall a (List.mem_cons_self a acts)
        have hrest := hih.2.2 (fun x hx => hall x (List.mem_cons_of_mem a hx))
        rw [hrun]
        constructor
        · refine le_trans ?_ hrest.1
          rw [hstep.2.2.1]
          exact le_add_of_nonneg_right ha.1
        · refine le_trans ?_ hrest.2
          rw [hstep.2.2.2]
          exact le_add_of_nonneg_right ha.2

/-- Processing more actions continues from the state reached so far. -/
theorem runTrace_append (st : TraceState) (l1 l2 : List Action) :
    runTrace st (l1 ++ l2) = runTrace (runTrace st l1) l2 :=
  List.foldl_append _ _ l1 l2

/-- C3, amended: between any earlier point and any later point of one
accumulator's run over a sequence of actions, `max_sensitivity` never
decreases (in the rank order low<medium<high) and `egress` never
reverts from external to internal; `volume_rows` and `volume_bytes`
never decrease provided the intervening actions' normalized rows and
bytes are non-negative (raw metadata may report negative counts, which
normalization passes through and which shrink the accumulators). -/
theorem trace_state_monotone :
    ∀ (st : TraceState) (l1 l2 : List Action),
      SENS_RANK (runTrace st l1).max_sensitivity
        ≤ SENS_RANK (runTrace st (l1 ++ l2)).max_sensitivity ∧
      ((runTrace st l1).egress = "external" →
        (runTrace st (l1 ++ l2)).egress = "external") ∧
      ((∀ a ∈ l2, 0 ≤ a.normalized_meta.rows ∧ 0 ≤ a.normalized_meta.bytes) →
        (runTrace st l1).volume_rows ≤ (runTrace st (l1 ++ l2)).volume_rows ∧
        (runTrace st l1).volume_bytes ≤ (runTrace st (l1 ++ l2)).volume_bytes) := by
  intro st l1 l2
  rw [runTrace_append]
  exact runTrace_monotone_of_init l2 (runTrace st l1)

/-- C3 witness: the amended monotonicity evaluated on a concrete run —
one external high-sensitivity action already processed, one further
action with non-negative normalized volume. -/
theorem trace_state_monotone_witness :
    (runTrace initialState [extHighAction]).egress = "external" ∧
    ((runTrace initialState ([extHighAction] ++ [orgChartAction])).egress
        = "external" ∧
      (runTrace initialState [extHighAction]).volume_rows
        ≤ (runTrace initialState ([extHighAction] ++ [orgChartAction])).volume_rows ∧
      (runTrace initialState [extHighAction]).volume_bytes
        ≤ (runTrace initialState ([extHighAction] ++ [orgChartAction])).volume_bytes) := by
  have hext : (runTrace initialState [extHighAction]).egress = "external" := by decide
  have h := trace_state_monotone initialState [extHighAction] [orgChartAction]
  have hvol := h.2.2 (fun a ha => by
    rw [List.mem_singleton] at ha
    subst ha
    exact ⟨by decide, by decide⟩)
  exact ⟨hext, h.2.1 hext, hvol.1, hvol.2⟩

/-! ## Claim C5 (confirmed) -/

/-- A url-block hit names a url pattern the reason ends with. -/
theorem urlHit_some (lib : PyLib) (dl : Denylist) (resource tool r : String)
    (h : Denylist.urlHit lib dl resource tool = Option.some r) :
    urlTools.contains tool = true ∧
      ∃ p, p ∈ dl.url_patterns ∧ r = "URL matches denylist pattern: " ++ p := by
  unfold Denylist.urlHit at h
  by_cases hc : urlTools.contains tool
  · rw [if_pos hc] at h
    obtain ⟨p, hp, hf⟩ := List.exists_of_findSome?_eq_some h
    by_cases hsr : lib.reSearch p resource
    · rw [if_pos hsr] at hf
      exact ⟨hc, p, hp, (Option.some.inj hf).symm⟩
    · rw [if_neg hsr] at hf
      exact absurd hf (by simp)
  · rw [if_neg hc] at h
    exact absurd h (by simp)

/-- A file-block hit names a file pattern the reason ends with. -/
theorem fileHit_some (lib : PyLib) (dl : Denylist) (resource tool r : String)
    (h : Denylist.fileHit lib dl resource tool = Option.some r) :
    fileTools.contains tool = true ∧
      ∃ p, p ∈ dl.file_patterns ∧ ∃ pre, r = pre ++ p := by
  unfold Denylist.fileHit at h
  by_cases hc : fileTools.contains tool
  · rw [if_pos hc] at h
    obtain ⟨p, hp, hf⟩ := List.exists_of_findSome?_eq_some h
    by_cases hstar : p.data.contains '*'
    · rw [if_pos hstar] at hf
      by_cases hpm : lib.pathMatch (lib.expanduser resource) p
      · rw [if_pos hpm] at hf
        exact ⟨hc, p, hp, "File matches denylist pattern: ",
          (Option.some.inj hf).symm⟩
      · rw [if_neg hpm] at hf
        exact absurd hf (by simp)
    · rw [if_neg hstar] at hf
      by_cases hpe : (lib.pathEq (lib.expanduser resource) (lib.expanduser p)
          || lib.expanduser resource == p) = true
      · rw [if_pos hpe] at hf
        exact ⟨hc, p, hp, "File is denylisted: ", (Option.some.inj hf).symm⟩
      · rw [if_neg hpe] at hf
        exact absurd hf (by simp)
  · rw [if_neg hc] at h
    exact absurd h (by simp)

/-- A command-block hit names a command pattern the reason ends with. -/
theorem cmdHit_some (lib : PyLib) (dl : Denylist) (resource tool r : String)
    (h : Denylist.cmdHit lib dl resource tool = Option.some r) :
    cmdTools.contains tool = true ∧
      ∃ p, p ∈ dl.command_patterns ∧ r = "Command matches denylist pattern: " ++ p := by
  unfold Denylist.cmdHit at h
  by_cases hc : cmdTools.contains tool
  · rw [if_pos hc] at h
    obtain ⟨p, hp, hf⟩ := List.exists_of_findSome?_eq_some h
    by_cases hsr : lib.reSearch p resource
    · rw [if_pos hsr] at hf
      exact ⟨hc, p, hp, (Option.some.inj hf).symm⟩
    · rw [if_neg hsr] at hf
      exact absurd hf (by simp)
  · rw [if_neg hc] at h
    exact absurd h (by simp)

/-- When `is_blocked` reports blocked, the whole result pair is
`(true, some reason)`, and the reason string ends with a pattern drawn
from the categories of the action's tool. -/
theorem is_blocked_true_reason (lib : PyLib) (dl : Denylist) (resource tool : String) :
    (Denylist.is_blocked lib dl resource tool).1 = true →
    ∃ r, Denylist.is_blocked lib dl resource tool = (true, Option.some r) ∧
      ∃ p, p ∈ Denylist.categoryPatterns dl tool ∧ ∃ pre, r = pre ++ p := by
  intro hb
  unfold Denylist.is_blocked at hb ⊢
  rcases hu : Denylist.urlHit lib dl resource tool with _ | r
  case some =>
    obtain ⟨hc, p, hp, hr⟩ := urlHit_some lib dl resource tool r hu
    refine ⟨r, rfl, p, ?_, "URL matches denylist pattern: ", hr⟩
    unfold Denylist.categoryPatterns
    rw [if_pos hc]
    exact List.mem_append_left _ (List.mem_append_left _ hp)
  case none =>
  rcases hf : Denylist.fileHit lib dl resource tool with _ | r
  case some =>
    obtain ⟨hc, p, hp, pre, hr⟩ := fileHit_some lib dl resource tool r hf
    refine ⟨r, rfl, p, ?_, pre, hr⟩
    unfold Denylist.categoryPatterns
    rw [if_pos hc]
    exact List.mem_append_left _ (List.mem_append_right _ hp)
  case none =>
  rcases hcm : Denylist.cmdHit lib dl resource tool with _ | r
  case some =>
    obtain ⟨hc, p, hp, hr⟩ := cmdHit_some lib dl resource tool r hcm
    refine ⟨r, rfl, p, ?_, "Command matches denylist pattern: ", hr⟩
    unfold Denylist.categoryPatterns
    rw [if_pos hc]
    exact List.mem_append_right _ hp
  case none =>
    rw [hu, hf, hcm] at hb
    exact Bool.noConfusion hb

/-- C5: whenever the action's resource matches a configured denylist
pattern in its tool's category (`is_blocked` reports blocked), `evaluate`
returns deny with policy_id "denylist.block" and a reason that names the
matching reason string — which itself ends with the matched pattern —
regardless of the purpose, the trace state, and the computed risk. -/
theorem denylist_precedence (lib : PyLib) (dl : Denylist) (action : Action)
    (state : TraceState) (purpose : String) (cfg : DenylistConfig)
    (hb : (Denylist.is_blocked lib dl action.resource action.tool).1 = true) :
    ∃ r, (Denylist.is_blocked lib dl action.resource action.tool).2 = Option.some r ∧
      evaluate lib cfg action state purpose (Option.some dl) =
        { decision := .deny, reason := "Denylisted: " ++ r,
          policy_id := Option.some "denylist.block" } ∧
      ∃ p, p ∈ Denylist.categoryPatterns dl action.tool ∧ ∃ pre, r = pre ++ p := by
  obtain ⟨r, hpair, p, hp, pre, hpre⟩ :=
    is_blocked_true_reason lib dl action.resource action.tool hb
  refine ⟨r, by rw [hpair], ?_, p, hp, pre, hpre⟩
  have hblk : denyIfBlocked lib (effectiveDenylist cfg (Option.some dl))
      action.resource action.tool =
      Option.some
        { decision := .deny
          reason := "Denylisted: " ++ r
          policy_id := Option.some "denylist.block" } := by
    show denyIfBlocked lib (Option.some dl) action.resource action.tool = _
    simp only [denyIfBlocked, hpair, pyFStrOpt]
  unfold evaluate
  rw [hblk]

/-- C5 witness: the stripe-checkout scenario evaluated concretely, with
arbitrary purpose and a non-empty trace state. -/
theorem denylist_precedence_witness :
    (Denylist.is_blocked sampleLib DEFAULT_DENYLIST
      stripeAction.resource stripeAction.tool).1 = true ∧
    evaluate sampleLib .absent stripeAction initialState "SOC_efficiency"
        (Option.some DEFAULT_DENYLIST) =
      { decision := .deny,
        reason := "Denylisted: URL matches denylist pattern: /checkout",
        policy_id := Option.some "denylist.block" } := by
  have hb : (Denylist.is_blocked sampleLib DEFAULT_DENYLIST
      stripeAction.resource stripeAction.tool).1 = true := by decide
  obtain ⟨r, hr, heval, -⟩ := denylist_precedence sampleLib DEFAULT_DENYLIST
    stripeAction initialState "SOC_efficiency" .absent hb
  have hrv : r = "URL matches denylist pattern: /checkout" := by
    have h2 : (Denylist.is_blocked sampleLib DEFAULT_DENYLIST
        stripeAction.resource stripeAction.tool).2
        = Option.some "URL matches denylist pattern: /checkout" := by decide
    rw [h2] at hr
    exact (Option.some.inj hr).symm
  subst hrv
  exact ⟨hb, heval.trans (by rfl)⟩

/-! ## Claim C7 (confirmed) -/

set_option maxRecDepth 8000

/-- When the effective denylist does not block, `evaluate` reduces to
its purpose-rule/risk-threshold tail. -/
theorem evaluate_unblocked (lib : PyLib) (cfg : DenylistConfig)
    (action : Action) (state : TraceState) (purpose : String)
    (dl? : Option Denylist)
    (hden : ∀ d, effectiveDenylist cfg dl? = Option.some d →
      (Denylist.is_blocked lib d action.resource action.tool).1 = false) :
    evaluate lib cfg action state purpose dl? =
      (if purpose = "SOC_efficiency" ∧
          strIn "salary" (pyLower action.resource) = true then
        { decision := .require_approval
          reason := "Access to salary data is not allowed for SOC efficiency tasks without approval."
          approval_key := Option.some "soc_salary_access"
          policy_id := Option.some "purpose.SOC_efficiency.salary" }
      else if evalRisk action state ≥ RISK_APPROVAL_MIN then
        { decision := .require_approval
          reason := "High cumulative risk (risk=" ++ toString (evalRisk action state)
            ++ ") based on sensitivity, volume, and chain context."
          approval_key := Option.some "high_risk_action"
          policy_id := Option.some "risk.high" }
      else if evalRisk action state > RISK_ALLOW_MAX then
        { decision := .allow_with_redaction
          reason := "Moderate risk (risk=" ++ toString (evalRisk action state)
            ++ "); sensitive fields must be redacted."
          redactions := Option.some [("auto", .bool true)]
          policy_id := Option.some "risk.moderate" }
      else
        { decision := .allow
          reason := "Low risk action (risk=" ++ toString (evalRisk action state) ++ ")."
          policy_id := Option.some "risk.low" }) := by
  have hblk : denyIfBlocked lib (effectiveDenylist cfg dl?)
      action.resource action.tool = Option.none := by
    rcases hdl : effectiveDenylist cfg dl? with _ | d
    · rfl
    · have hb := hden d hdl
      rcases hib : Denylist.is_blocked lib d action.resource action.tool with ⟨b, snd⟩
      have hbf : b = false := by rw [hib] at hb; exact hb
      subst hbf
      simp only [denyIfBlocked, hib]
  unfold evaluate
  rw [hblk]

/-- C7: with the denylist and the purpose rule out of the way, the
decision follows the exact integer cutoffs — risk at least 11 requires
approval under key "high_risk_action", risk strictly between 5 and 11
allows with an auto-redact directive, risk at most 5 allows — and every
result of `evaluate` carries a non-empty reason and a policy id. -/
theorem risk_threshold_mapping (lib : PyLib) (cfg : DenylistConfig)
    (action : Action) (state : TraceState) (purpose : String)
    (dl? : Option Denylist)
    (hden : ∀ d, effectiveDenylist cfg dl? = Option.some d →
      (Denylist.is_blocked lib d action.resource action.tool).1 = false)
    (hp : ¬(purpose = "SOC_efficiency" ∧
      strIn "salary" (pyLower action.resource) = true)) :
    (evalRisk action state ≥ 11 →
      evaluate lib cfg action state purpose dl? =
        { decision := .require_approval
          reason := "High cumulative risk (risk=" ++ toString (evalRisk action state)
            ++ ") based on sensitivity, volume, and chain context."
          approval_key := Option.some "high_risk_action"
          policy_id := Option.some "risk.high" }) ∧
    (5 < evalRisk action state ∧ evalRisk action state < 11 →
      evaluate lib cfg action state purpose dl? =
        { decision := .allow_with_redaction
          reason := "Moderate risk (risk=" ++ toString (evalRisk action state)
            ++ "); sensitive fields must be redacted."
          redactions := Option.some [("auto", .bool true)]
          policy_id := Option.some "risk.moderate" }) ∧
    (evalRisk action state ≤ 5 →
      evaluate lib cfg action state purpose dl? =
        { decision := .allow
          reason := "Low risk action (risk=" ++ toString (evalRisk action state) ++ ")."
          policy_id := Option.some "risk.low" }) ∧
    (evaluate lib cfg action state purpose dl?).reason ≠ "" ∧
    (evaluate lib cfg action state purpose dl?).policy_id ≠ Option.none := by
  have hev : evaluate lib cfg action state purpose dl? =
      (if evalRisk action state ≥ RISK_APPROVAL_MIN then
        { decision := .require_approval
          reason := "High cumulative risk (risk=" ++ toString (evalRisk action state)
            ++ ") based on sensitivity, volume, and chain context."
          approval_key := Option.some "high_risk_action"
          policy_id := Option.some "risk.high" }
      else if evalRisk action state > RISK_ALLOW_MAX then
        { decision := .allow_with_redaction
          reason := "Moderate risk (risk=" ++ toString (evalRisk action state)
            ++ "); sensitive fields must be redacted."
          redactions := Option.some [("auto", .bool true)]
          policy_id := Option.some "risk.moderate" }
      else
        { decision := .allow
          reason := "Low risk action (risk=" ++ toString (evalRisk action state) ++ ")."
          policy_id := Option.some "risk.low" }) := by
    rw [evaluate_unblocked lib cfg action state purpose dl? hden, if_neg hp]
  have h1 : evalRisk action state ≥ 11 →
      evaluate lib cfg action state purpose dl? =
        { decision := .require_approval
          reason := "High cumulative risk (risk=" ++ toString (evalRisk action state)
            ++ ") based on sensitivity, volume, and chain context."
          approval_key := Option.some "high_risk_action"
          policy_id := Option.some "risk.high" } := by
    intro h
    rw [hev, if_pos (show evalRisk action state ≥ RISK_APPROVAL_MIN from h)]
  have h2 : 5 < evalRisk action state ∧ evalRisk action state < 11 →
      evaluate lib cfg action state purpose dl? =
        { decision := .allow_with_redaction
          reason := "Moderate risk (risk=" ++ toString (evalRisk action state)
            ++ "); sensitive fields must be redacted."
          redactions := Option.some [("auto", .bool true)]
          policy_id := Option.some "risk.moderate" } := by
    intro h
    rw [hev, if_neg (show ¬(evalRisk action state ≥ RISK_APPROVAL_MIN) by
        unfold RISK_APPROVAL_MIN; omega),
      if_pos (show evalRisk action state > RISK_ALLOW_MAX by
        unfold RISK_ALLOW_MAX; omega)]
  have h3 : evalRisk action state ≤ 5 →
      evaluate lib cfg action state purpose dl? =
        { decision := .allow
          reason := "Low risk action (risk=" ++ toString (evalRisk action state) ++ ")."
          policy_id := Option.some "risk.low" } := by
    intro h
    rw [hev, if_neg (show ¬(evalRisk action state ≥ RISK_APPROVAL_MIN) by
        unfold RISK_APPROVAL_MIN; omega),
      if_neg (show ¬(evalRisk action state > RISK_ALLOW_MAX) by
        unfold RISK_ALLOW_MAX; omega)]
  refine ⟨h1, h2, h3, ?_, ?_⟩
  · have htri : evalRisk action state ≤ 5 ∨
        (5 < evalRisk action state ∧ evalRisk action state < 11) ∨
        evalRisk action state ≥ 11 := by omega
    rcases htri with h | h | h
    · rw [h3 h]
      exact append_ne_empty_left _ _ (by
        rw [String.data_append]
        intro hc
        exact absurd (List.append_eq_nil.mp hc).1 (by decide))
    · rw [h2 h]
      exact append_ne_empty_left _ _ (by
        rw [String.data_append]
        intro hc
        exact absurd (List.append_eq_nil.mp hc).1 (by decide))
    · rw [h1 h]
      exact append_ne_empty_left _ _ (by
        rw [String.data_append]
        intro hc
        exact absurd (List.append_eq_nil.mp hc).1 (by decide))
  · have htri : evalRisk action state ≤ 5 ∨
        (5 < evalRisk action state ∧ evalRisk action state < 11) ∨
        evalRisk action state ≥ 11 := by omega
    rcases htri with h | h | h
    · rw [h3 h]; exact fun hc => Option.noConfusion hc
    · rw [h2 h]; exact fun hc => Option.noConfusion hc
    · rw [h1 h]; exact fun hc => Option.noConfusion hc

/-- C7 witness: the low-risk org-chart scenario — empty denylist, a
purpose rule that does not fire — evaluates to allow with risk 3
(sensitivity low 1, new source 2). -/
theorem risk_threshold_mapping_witness :
    evalRisk orgChartAction initialState = 3 ∧
    evaluate sampleLib .absent orgChartAction initialState "SOC_efficiency"
        (Option.some emptyDenylist) =
      { decision := .allow
        reason := "Low risk action (risk=3)."
        policy_id := Option.some "risk.low" } := by
  have hrisk : evalRisk orgChartAction initialState = 3 := by decide
  have h := risk_threshold_mapping sampleLib .absent orgChartAction initialState
    "SOC_efficiency" (Option.some emptyDenylist)
    (fun d hd => by
      have hde : Option.some emptyDenylist = Option.some d := hd
      obtain rfl := Option.some.inj hde
      decide)
    (fun hc => by
      have : strIn "salary" (pyLower orgChartAction.resource) = true := hc.2
      exact absurd this (by decide))
  refine ⟨hrisk, ?_⟩
  have h3 := h.2.2.1 (by rw [hrisk]; decide)
  rw [h3, hrisk]
  rfl

end Chainwatch
